import Mathlib

/-!
Verification of the VisionForge digit-recognition core against its
natural-language specification.

The development shallowly embeds the two core components of the repository:

* `src/backend/preprocessing.py` — the image normalization pipeline
  (`preprocess_for_mnist` and its helpers `adaptive_threshold`,
  `remove_small_components`, `center_digit_by_mass`);
* `src/backend/gradcam.py` and `src/backend/model.py` — the Grad-CAM
  explanation engine and the activation-capture operation.

Modelling conventions:

* Grayscale images (numpy uint8 arrays) are the structure `Img`: a height,
  a width, and a pixel function.  Pixels are indexed by integers so that
  translations with negative offsets need no coercion tricks; only indices
  inside `[0, h) × [0, w)` are ever relevant.
* Python floats are modelled by exact rationals.  Where the source compares
  or truncates float quantities that are ratios of machine integers
  (`white_ratio`, the center-of-mass shifts), the embedding computes the
  mathematically identical integer form (cross-multiplied comparisons,
  `Int.tdiv` for Python's `int()` truncation toward zero); bridging lemmas
  (`whiteFrac_lt_low_iff`, `centerShift_eq_trunc`, …) state the rational
  form explicitly.
* Calls into OpenCV / scipy that the repository does not implement
  (CLAHE, Otsu, adaptive threshold, connected components, morphological
  closing, resize, Gaussian blur) are fields of a `CV` structure: the
  pipeline is verified for every behaviour of these external primitives,
  and concrete instances are supplied where a claim needs a specific
  documented behaviour of the library.
* Python exceptions are modelled with `Except`: every external primitive
  may fail, and `preprocess_for_mnist`'s `try/except` is the final match.
-/

/-- A grayscale uint8 image: numpy array of shape (h, w).  `px` is total for
convenience; only indices in `[0, h) × [0, w)` are meaningful. -/
structure Img where
  h : ℕ
  w : ℕ
  px : ℤ → ℤ → ℕ

/-- Number of nonzero pixels: `cv2.countNonZero(img)`, also `np.sum(img > 0)`. -/
def countNonZero (c : Img) : ℕ :=
  ∑ y ∈ Finset.range c.h, ∑ x ∈ Finset.range c.w, (if c.px y x ≠ 0 then 1 else 0)

/-- Number of pixels with value `v`: one bin of `cv2.calcHist(..., [256], [0,256])`. -/
def histCount (c : Img) (v : ℕ) : ℕ :=
  ∑ y ∈ Finset.range c.h, ∑ x ∈ Finset.range c.w, (if c.px y x = v then 1 else 0)

/-- Index of the first maximal element of a list (`np.argmax`), accumulator form. -/
def argmaxIdxAux {α : Type} [LinearOrder α] : ℕ → α → ℕ → List α → ℕ
  | bi, _, _, [] => bi
  | bi, bv, i, a :: t => if bv < a then argmaxIdxAux i a (i + 1) t else argmaxIdxAux bi bv (i + 1) t

/-- Index of the first maximal element of a list (`np.argmax`); 0 on the empty list. -/
def argmaxIdx {α : Type} [LinearOrder α] : List α → ℕ
  | [] => 0
  | a :: t => argmaxIdxAux 0 a 1 t

/-- Modal intensity of the image: `np.argmax(cv2.calcHist(...))`, the first
intensity value in `[0, 256)` with the largest pixel count. -/
def argmaxHist (c : Img) : ℕ :=
  argmaxIdx ((List.range 256).map (histCount c))

/-- Pointwise inversion `255 - img` of a uint8 image. -/
def invertImg (c : Img) : Img :=
  ⟨c.h, c.w, fun y x => 255 - c.px y x⟩

/-- Constant image, for concrete instances and counterexamples. -/
def constImg (h w v : ℕ) : Img :=
  ⟨h, w, fun _ _ => v⟩

/-- Polarity correction, step 2 of `preprocess_for_mnist` (lines 212-219):
if the modal intensity (assumed background) exceeds 127, invert so strokes
are bright on dark. -/
def polarityFix (c : Img) : Img :=
  if 127 < argmaxHist c then invertImg c else c

/-- Error raised by an external image-processing primitive; models an
arbitrary Python exception escaping an OpenCV / scipy call. -/
inductive CvErr where
  | exn : CvErr
deriving DecidableEq

/-- Interpolation mode chosen for `cv2.resize` (line 275-279 of the source). -/
inductive Interp where
  | area : Interp
  | cubic : Interp
deriving DecidableEq

/-- Result of `cv2.connectedComponentsWithStats(binary, connectivity=8)`:
the number of labels (background label 0 included), the label map, and the
`CC_STAT_AREA` column of the stats matrix. -/
structure CCStats where
  numLabels : ℕ
  labelOf : ℤ → ℤ → ℕ
  area : ℕ → ℕ

/-- External image-processing primitives used by the pipeline, with the exact
parameters fixed in the source.  Each call may raise (modelled by `Except`).
The pipeline below is verified for arbitrary behaviour of these fields. -/
structure CV where
  /-- `cv2.createCLAHE(clipLimit=2.0, tileGridSize=(4,4)).apply`, via `enhance_contrast`. -/
  clahe : Img → Except CvErr Img
  /-- `cv2.threshold(gray, 0, 255, cv2.THRESH_BINARY + cv2.THRESH_OTSU)` (second return value). -/
  otsu : Img → Except CvErr Img
  /-- `cv2.adaptiveThreshold(gray, 255, ADAPTIVE_THRESH_GAUSSIAN_C, THRESH_BINARY, 11, 2)`. -/
  adaptiveGauss : Img → Except CvErr Img
  /-- `cv2.connectedComponentsWithStats(binary, connectivity=8)`. -/
  connectedComponentsWithStats : Img → Except CvErr CCStats
  /-- `cv2.morphologyEx(binary, MORPH_CLOSE, getStructuringElement(MORPH_ELLIPSE, (2,2)))`. -/
  morphCloseEllipse2 : Img → Except CvErr Img
  /-- `cv2.resize(digit, (new_w, new_h), interpolation)`. -/
  resize : Img → ℕ → ℕ → Interp → Except CvErr Img
  /-- `cv2.GaussianBlur(canvas, (3,3), 0.5)`. -/
  gaussianBlur3x3 : Img → Except CvErr Img

/-- The foreground fraction `white_ratio = np.sum(otsu > 0) / otsu.size`
computed by `adaptive_threshold` (line 150), as an exact rational. -/
def whiteFrac (o : Img) : ℚ :=
  (countNonZero o : ℚ) / ((o.h * o.w : ℕ) : ℚ)

/-- The source `adaptive_threshold` (preprocessing.py lines 141-161): try
Otsu, compute `white_ratio`, and fall back to Gaussian adaptive thresholding
when `white_ratio < 0.01 or white_ratio > 0.9`.  The two float comparisons of
the ratio `count/size` are computed in the mathematically identical
cross-multiplied integer form (`100*count < size`, `9*size < 10*count`);
for `size = 0` the Python comparisons are `NaN < 0.01` / `NaN > 0.9`, both
false, and the integer forms are likewise both false, so no special case is
needed.  See `whiteFrac_lt_low_iff` / `whiteFrac_gt_high_iff`. -/
def adaptive_threshold (cv : CV) (g : Img) : Except CvErr Img :=
  match cv.otsu g with
  | .error e => .error e
  | .ok o =>
    if 100 * countNonZero o < o.h * o.w ∨ 9 * (o.h * o.w) < 10 * countNonZero o then
      cv.adaptiveGauss g
    else
      .ok o

/-- For a nonempty image, the low-side test of `adaptive_threshold` is
exactly `white_ratio < 0.01`. -/
theorem whiteFrac_lt_low_iff (o : Img) (hsz : 0 < o.h * o.w) :
    whiteFrac o < 1 / 100 ↔ 100 * countNonZero o < o.h * o.w := by
  unfold whiteFrac
  rw [div_lt_div_iff₀ (by exact_mod_cast hsz) (by norm_num : (0:ℚ) < 100), one_mul]
  constructor
  · intro h
    have h' : countNonZero o * 100 < o.h * o.w := by exact_mod_cast h
    omega
  · intro h
    have h' : countNonZero o * 100 < o.h * o.w := by omega
    exact_mod_cast h'

/-- For a nonempty image, the high-side test of `adaptive_threshold` is
exactly `white_ratio > 0.9`. -/
theorem whiteFrac_gt_high_iff (o : Img) (hsz : 0 < o.h * o.w) :
    9 / 10 < whiteFrac o ↔ 9 * (o.h * o.w) < 10 * countNonZero o := by
  unfold whiteFrac
  rw [div_lt_div_iff₀ (by norm_num : (0:ℚ) < 10) (by exact_mod_cast hsz)]
  constructor
  · intro h
    have h' : 9 * (o.h * o.w) < countNonZero o * 10 := by exact_mod_cast h
    omega
  · intro h
    have h' : 9 * (o.h * o.w) < countNonZero o * 10 := by omega
    exact_mod_cast h'

/-- The source `remove_small_components` (preprocessing.py lines 60-85):
8-connected components; if more than one label exists, keep only the
largest foreground component (`1 + np.argmax(stats[1:, CC_STAT_AREA])`),
painting it 255 on a zeroed copy. -/
def remove_small_components (cv : CV) (b : Img) : Except CvErr Img :=
  match cv.connectedComponentsWithStats b with
  | .error e => .error e
  | .ok st =>
    if st.numLabels ≤ 1 then .ok b
    else
      let areas := (List.range (st.numLabels - 1)).map (fun i => st.area (i + 1))
      if areas = [] then .ok b
      else
        let largest := 1 + argmaxIdx areas
        .ok ⟨b.h, b.w, fun y x => if st.labelOf y x = largest then 255 else 0⟩

/-- Aspect-ratio-preserving target dimensions `(new_h, new_w)` of the source
(lines 262-273): the longer side maps to `target_size = 20`, the shorter side
to `max(1, int(20 * aspect))` resp. `max(1, int(20 / aspect))` with
`aspect = digit_w / digit_h`; the float truncation `int(...)` of the
nonnegative ratio is ℕ-division. -/
def resizeDims (dh dw : ℕ) : ℕ × ℕ :=
  if dw < dh then
    (20, max 1 (20 * dw / dh))
  else
    (max 1 (20 * dh / dw), 20)

/-- Interpolation choice of the source (lines 275-279): `INTER_AREA` when
either dimension shrinks, else `INTER_CUBIC`. -/
def chooseInterp (dh dw nh nw : ℕ) : Interp :=
  if nh < dh ∨ nw < dw then Interp.area else Interp.cubic

/-- Canvas placement offset `max(0, (28 - n) // 2)` (lines 286-291); for
`n ≤ 28` ℕ-subtraction and Python floor division agree, and for `n > 28`
both give 0. -/
def canvasOffset (n : ℕ) : ℕ := (28 - n) / 2

/-- Copy region extent `min(n, 28 - offset)` (lines 293-295). -/
def copyLen (n : ℕ) : ℕ := min n (28 - canvasOffset n)

/-- Step 9 of the pipeline (lines 283-297): paste the resized digit into a
zeroed 28×28 canvas at the centering offsets, clipped to the canvas. -/
def placeCanvas (dr : Img) (nh nw : ℕ) : Img :=
  ⟨28, 28, fun y x =>
    if (canvasOffset nh : ℤ) ≤ y ∧ y < canvasOffset nh + copyLen nh ∧
       (canvasOffset nw : ℤ) ≤ x ∧ x < canvasOffset nw + copyLen nw then
      dr.px (y - canvasOffset nh) (x - canvasOffset nw)
    else 0⟩

/-- Total pixel mass `Σ v` of an image; `scipy.ndimage.center_of_mass`
returns NaN exactly when this is 0. -/
def gridMass (c : Img) : ℕ :=
  ∑ y ∈ Finset.range c.h, ∑ x ∈ Finset.range c.w, c.px y x

/-- Column-weighted mass `Σ x·v`. -/
def sumXw (c : Img) : ℕ :=
  ∑ y ∈ Finset.range c.h, ∑ x ∈ Finset.range c.w, x * c.px y x

/-- Row-weighted mass `Σ y·v`. -/
def sumYw (c : Img) : ℕ :=
  ∑ y ∈ Finset.range c.h, ∑ x ∈ Finset.range c.w, y * c.px y x

/-- Center-of-mass column `cx` from `scipy.ndimage.center_of_mass`. -/
def centroidX (c : Img) : ℚ := (sumXw c : ℚ) / (gridMass c : ℚ)

/-- Center-of-mass row `cy` from `scipy.ndimage.center_of_mass`. -/
def centroidY (c : Img) : ℚ := (sumYw c : ℚ) / (gridMass c : ℚ)

/-- Python `int()` on a rational: truncation toward zero. -/
def ratTrunc (q : ℚ) : ℤ := q.num.tdiv q.den

/-- Integer translation of `cv2.warpAffine(img, [[1,0,sx],[0,1,sy]], (28,28),
borderMode=BORDER_CONSTANT, borderValue=0)`: for an integer shift the warp is
an exact translation with zero fill.  Both the destination size and the
source bounds are the 28×28 canvas: `center_digit_by_mass` operates on
`img_28x28`. -/
def shiftImg (sy sx : ℤ) (c : Img) : Img :=
  ⟨28, 28, fun y x =>
    if 0 ≤ y - sy ∧ y - sy < 28 ∧ 0 ≤ x - sx ∧ x - sx < 28 then
      c.px (y - sy) (x - sx)
    else 0⟩

/-- The source `center_digit_by_mass` (preprocessing.py lines 164-183):
compute the center of mass; if it is NaN (zero total mass) return the image
unchanged, else translate by `(int(13.5 - cx), int(13.5 - cy))`.  The float
truncation `int(13.5 - s/m)` is computed in the identical exact integer form
`Int.tdiv (27*m - 2*s) (2*m)`; `centerShift_eq_trunc` below states the
rational form. -/
def center_digit_by_mass (c : Img) : Img :=
  let m := gridMass c
  if m = 0 then c
  else
    shiftImg (Int.tdiv (27 * m - 2 * (sumYw c : ℤ)) (2 * m))
             (Int.tdiv (27 * m - 2 * (sumXw c : ℤ)) (2 * m)) c

/-- Maximum pixel value of the 28×28 canvas, `canvas.max()`; at this point in
the pipeline the canvas always has shape 28×28. -/
def gridMax28 (c : Img) : ℕ :=
  Finset.sup (Finset.range 28) (fun y => Finset.sup (Finset.range 28) (fun x => c.px y x))

/-- Step 12 of the pipeline (lines 305-307): if the canvas has a positive
maximum, rescale so the maximum maps to 255 —
`(canvas.astype(float32) / canvas.max() * 255).astype(uint8)`; the float
computation `v / m * 255` truncated to uint8 is `v * 255 / m` in
ℕ-division. -/
def renormalize (c : Img) : Img :=
  if gridMax28 c = 0 then c
  else ⟨28, 28, fun y x => c.px y x * 255 / gridMax28 c⟩

/-- The CanonicalTensor shape (1, 28, 28, 1) of float values: the leading
batch axis and trailing channel axis are the `Fin 1` arguments. -/
def Canonical : Type := Fin 1 → Fin 28 → Fin 28 → Fin 1 → ℚ

/-- Step 13 (lines 310-313): `canvas.astype(float32) / 255.0` with batch and
channel axes added. -/
def toCanonical (c : Img) : Canonical :=
  fun _ y x _ => (c.px ((y : ℕ) : ℤ) ((x : ℕ) : ℤ) : ℚ) / 255

/-- The all-zero 28×28 canvas. -/
def zeroCanvas : Img := ⟨28, 28, fun _ _ => 0⟩

/-- The all-zero CanonicalTensor, `np.zeros((1, 28, 28, 1), dtype=np.float32)`. -/
def zeroCanonical : Canonical := fun _ _ _ _ => 0

/-- Index of the top row of the foreground bounding box:
`coords.min(axis=0)[0]` for `coords = np.column_stack(np.where(binary > 0))`. -/
def bbYMin (c : Img) : ℕ :=
  ((List.range c.h).find?
    (fun (y : ℕ) => decide (∃ x ∈ Finset.range c.w, c.px (y : ℤ) (x : ℤ) ≠ 0))).getD 0

/-- Index of the bottom row of the foreground bounding box. -/
def bbYMax (c : Img) : ℕ :=
  ((List.range c.h).reverse.find?
    (fun (y : ℕ) => decide (∃ x ∈ Finset.range c.w, c.px (y : ℤ) (x : ℤ) ≠ 0))).getD 0

/-- Index of the leftmost foreground column. -/
def bbXMin (c : Img) : ℕ :=
  ((List.range c.w).find?
    (fun (x : ℕ) => decide (∃ y ∈ Finset.range c.h, c.px (y : ℤ) (x : ℤ) ≠ 0))).getD 0

/-- Index of the rightmost foreground column. -/
def bbXMax (c : Img) : ℕ :=
  ((List.range c.w).reverse.find?
    (fun (x : ℕ) => decide (∃ y ∈ Finset.range c.h, c.px (y : ℤ) (x : ℤ) ≠ 0))).getD 0

/-- Step 7 of the pipeline (lines 239-257): foreground bounding box, 2-pixel
padding clamped to the bounds of `a` (the polarity-corrected full image), and
the extracted digit region `binary[y_min:y_max+1, x_min:x_max+1]`.  With
ℕ-subtraction, `bb - 2` is Python's `max(0, bb - padding)`. -/
def cropDigit (a closed : Img) : Img :=
  let ymin := bbYMin closed - 2
  let xmin := bbXMin closed - 2
  let ymax := min (a.h - 1) (bbYMax closed + 2)
  let xmax := min (a.w - 1) (bbXMax closed + 2)
  ⟨ymax + 1 - ymin, xmax + 1 - xmin, fun y x => closed.px (y + ymin) (x + xmin)⟩

/-- The body of `preprocess_for_mnist` (preprocessing.py lines 205-315), i.e.
the `try:` block, producing the final 28×28 canvas.  Sequencing of the
fallible primitive calls is `Except.bind` (the Python control flow: the first
exception aborts the body).  The two early returns of all-zero tensors appear
as `zeroCanvas`; the final `/255` is applied uniformly by
`preprocess_for_mnist` below and maps it to the all-zero tensor.  The
emptiness test `len(coords) == 0` is equivalently `countNonZero closed = 0`. -/
def preprocessBody (cv : CV) (img : Img) : Except CvErr Img :=
  -- steps 1-3: grayscale input, histogram polarity correction, CLAHE
  (cv.clahe (polarityFix img)).bind fun enh =>
  -- step 4: Otsu with adaptive fallback
  (adaptive_threshold cv enh).bind fun binary =>
  -- step 5: keep only the largest connected component
  (remove_small_components cv binary).bind fun mask =>
  -- early exit: fewer than 10 surviving foreground pixels
  if countNonZero mask < 10 then .ok zeroCanvas
  else
    -- step 6: morphological closing
    (cv.morphCloseEllipse2 mask).bind fun closed =>
    -- step 7: empty bounding box guard
    if countNonZero closed = 0 then .ok zeroCanvas
    else
      let digit := cropDigit (polarityFix img) closed
      -- step 8: aspect-preserving resize to the 20×20 cell
      let nh := (resizeDims digit.h digit.w).1
      let nw := (resizeDims digit.h digit.w).2
      (cv.resize digit nw nh (chooseInterp digit.h digit.w nh nw)).bind fun dr =>
      -- steps 9-11: canvas placement, center-of-mass refinement, blur
      (cv.gaussianBlur3x3 (center_digit_by_mass (placeCanvas dr nh nw))).map
      -- step 12: intensity renormalization
        renormalize

/-- The canvas actually returned by `preprocess_for_mnist`: the body's result,
or the all-zero canvas when the `except` handler fires (lines 317-320). -/
def preprocessCanvas (cv : CV) (img : Img) : Img :=
  match preprocessBody cv img with
  | .ok c => c
  | .error _ => zeroCanvas

/-- The source `preprocess_for_mnist` (lines 186-320): the normalized
(1, 28, 28, 1) tensor, with every internal failure mapped to the all-zero
tensor by the catch-all handler. -/
def preprocess_for_mnist (cv : CV) (img : Img) : Canonical :=
  toCanonical (preprocessCanvas cv img)

/-- C10: for every digit region of positive height and width, the
aspect-ratio-preserving resize dimensions both lie in [1, 20] with the longer
side exactly 20, the canvas placement offsets `(28 - dim) // 2` are at least
4, and the copy-region clamping `min(dim, 28 - offset)` never truncates. -/
theorem c10_resize_placement_bounds (dh dw : ℕ) (h1 : 0 < dh) (h2 : 0 < dw) :
    1 ≤ (resizeDims dh dw).1 ∧ (resizeDims dh dw).1 ≤ 20 ∧
    1 ≤ (resizeDims dh dw).2 ∧ (resizeDims dh dw).2 ≤ 20 ∧
    max (resizeDims dh dw).1 (resizeDims dh dw).2 = 20 ∧
    4 ≤ canvasOffset (resizeDims dh dw).1 ∧ 4 ≤ canvasOffset (resizeDims dh dw).2 ∧
    copyLen (resizeDims dh dw).1 = (resizeDims dh dw).1 ∧
    copyLen (resizeDims dh dw).2 = (resizeDims dh dw).2 := by
  by_cases h : dw < dh
  · have hlt : 20 * dw / dh < 20 := by
      rw [Nat.div_lt_iff_lt_mul h1]
      omega
    simp only [resizeDims, if_pos h]
    unfold copyLen canvasOffset
    refine ⟨by omega, by omega, by omega, by omega, by omega, by omega, by omega,
      by omega, by omega⟩
  · have hle : 20 * dh / dw ≤ 20 := by
      calc 20 * dh / dw ≤ dw * 20 / dw := Nat.div_le_div_right (by omega)
      _ = 20 := Nat.mul_div_cancel_left 20 h2
    simp only [resizeDims, if_neg h]
    unfold copyLen canvasOffset
    refine ⟨by omega, by omega, by omega, by omega, by omega, by omega, by omega,
      by omega, by omega⟩

/-- C10 witness: a concrete 3×5 digit region. -/
theorem c10_witness :
    1 ≤ (resizeDims 3 5).1 ∧ (resizeDims 3 5).1 ≤ 20 ∧
    1 ≤ (resizeDims 3 5).2 ∧ (resizeDims 3 5).2 ≤ 20 ∧
    max (resizeDims 3 5).1 (resizeDims 3 5).2 = 20 ∧
    4 ≤ canvasOffset (resizeDims 3 5).1 ∧ 4 ≤ canvasOffset (resizeDims 3 5).2 ∧
    copyLen (resizeDims 3 5).1 = (resizeDims 3 5).1 ∧
    copyLen (resizeDims 3 5).2 = (resizeDims 3 5).2 :=
  c10_resize_placement_bounds 3 5 (by norm_num) (by norm_num)

/-! ### Concrete images and CV instances used by witnesses and counterexamples -/

/-- A 10×10 Otsu output with exactly one white pixel: foreground fraction
exactly 1/100, the boundary of the acceptance interval. -/
def R1img : Img := ⟨10, 10, fun y x => if y = 0 ∧ x = 0 then 255 else 0⟩

/-- A 2×2 mask with one white pixel: fraction 1/4 (accepted), count 1 < 10. -/
def halfImg : Img := ⟨2, 2, fun y x => if y = 0 ∧ x = 0 then 255 else 0⟩

/-- CV instance whose Otsu output is `R1img` (fraction exactly 1/100) and
whose adaptive threshold returns a recognizably different image. -/
def cv4 : CV :=
  ⟨fun i => .ok i, fun _ => .ok R1img, fun _ => .ok (constImg 10 10 7),
   fun _ => .ok ⟨1, fun _ _ => 0, fun _ => 0⟩, fun i => .ok i,
   fun i _ _ _ => .ok i, fun i => .ok i⟩

/-- CV instance whose binarization survives with a single foreground pixel:
drives the early-exit path of the pipeline. -/
def cvSmall : CV :=
  ⟨fun i => .ok i, fun _ => .ok halfImg, fun i => .ok i,
   fun _ => .ok ⟨1, fun _ _ => 0, fun _ => 0⟩, fun i => .ok i,
   fun i _ _ _ => .ok i, fun i => .ok i⟩

/-- CV instance whose CLAHE call raises: drives the exception handler. -/
def cvFail : CV :=
  ⟨fun _ => .error .exn, fun i => .ok i, fun i => .ok i,
   fun _ => .ok ⟨1, fun _ _ => 0, fun _ => 0⟩, fun i => .ok i,
   fun i _ _ _ => .ok i, fun i => .ok i⟩

/-! ### C4 — Otsu acceptance interval -/

/-- C4 (amended): the Otsu result is accepted exactly when its foreground
fraction lies in the closed interval [0.01, 0.9]; strictly outside it, the
pipeline uses the Gaussian adaptive threshold with block size 11 and offset 2
(the `adaptiveGauss` primitive). -/
theorem c4_otsu_acceptance (cv : CV) (g o : Img) (ho : cv.otsu g = Except.ok o)
    (hsz : 0 < o.h * o.w) :
    ((1 / 100 : ℚ) ≤ whiteFrac o ∧ whiteFrac o ≤ 9 / 10 →
      adaptive_threshold cv g = Except.ok o) ∧
    (whiteFrac o < 1 / 100 ∨ 9 / 10 < whiteFrac o →
      adaptive_threshold cv g = cv.adaptiveGauss g) := by
  have hred : adaptive_threshold cv g =
      if 100 * countNonZero o < o.h * o.w ∨ 9 * (o.h * o.w) < 10 * countNonZero o then
        cv.adaptiveGauss g
      else Except.ok o := by
    simp only [adaptive_threshold, ho]
  rw [hred]
  constructor
  · rintro ⟨hl, hh⟩
    have hA : ¬ (100 * countNonZero o < o.h * o.w) := by
      rw [← whiteFrac_lt_low_iff o hsz]
      exact not_lt.mpr hl
    have hB : ¬ (9 * (o.h * o.w) < 10 * countNonZero o) := by
      rw [← whiteFrac_gt_high_iff o hsz]
      exact not_lt.mpr hh
    rw [if_neg (by tauto)]
  · intro hor
    rw [if_pos]
    rcases hor with hl | hh
    · exact Or.inl ((whiteFrac_lt_low_iff o hsz).mp hl)
    · exact Or.inr ((whiteFrac_gt_high_iff o hsz).mp hh)

/-- C4 witness: at foreground fraction exactly 1/100 the Otsu result is
accepted. -/
theorem c4_witness : adaptive_threshold cv4 (constImg 10 10 0) = Except.ok R1img := by
  have h1 : countNonZero R1img = 1 := by decide
  have h2 : R1img.h * R1img.w = 100 := by decide
  have hf : whiteFrac R1img = 1 / 100 := by
    unfold whiteFrac
    rw [h1, h2]
    norm_num
  exact (c4_otsu_acceptance cv4 (constImg 10 10 0) R1img rfl (by decide)).1
    ⟨by rw [hf], by rw [hf]; norm_num⟩

/-- C4 counterexample: a 10×10 Otsu output with foreground fraction exactly
1/100 lies outside the open interval (0.01, 0.9), yet `adaptive_threshold`
accepts the Otsu image (pixel (0,0) is 255) instead of using the adaptive
result (pixel (0,0) is 7): the Python test `white_ratio < 0.01` is strict,
so the claimed acceptance interval is closed at its endpoints, not open. -/
theorem c4_counterexample :
    whiteFrac R1img = 1 / 100 ∧
    ¬ (1 / 100 < whiteFrac R1img ∧ whiteFrac R1img < 9 / 10) ∧
    adaptive_threshold cv4 (constImg 10 10 0) = Except.ok R1img ∧
    R1img.px 0 0 = 255 ∧
    cv4.adaptiveGauss (constImg 10 10 0) = Except.ok (constImg 10 10 7) ∧
    (constImg 10 10 7).px 0 0 = 7 := by
  have h1 : countNonZero R1img = 1 := by decide
  have h2 : R1img.h * R1img.w = 100 := by decide
  have hf : whiteFrac R1img = 1 / 100 := by
    unfold whiteFrac
    rw [h1, h2]
    norm_num
  refine ⟨hf, ?_, rfl, rfl, rfl, rfl⟩
  rw [hf]
  norm_num

/-! ### C1 — output shape, dtype and value range -/

/-- Every in-grid pixel is bounded by the canvas maximum. -/
theorem px_le_gridMax28 (c : Img) (y x : ℕ) (hy : y < 28) (hx : x < 28) :
    c.px (y : ℤ) (x : ℤ) ≤ gridMax28 c := by
  unfold gridMax28
  exact le_trans
    (Finset.le_sup (f := fun x : ℕ => c.px (y : ℤ) (x : ℤ)) (Finset.mem_range.mpr hx))
    (Finset.le_sup (f := fun y : ℕ => Finset.sup (Finset.range 28) fun x : ℕ => c.px y x)
      (Finset.mem_range.mpr hy))

/-- After intensity renormalization every in-grid pixel is a uint8 value. -/
theorem renormalize_px_le (c : Img) (y x : ℕ) (hy : y < 28) (hx : x < 28) :
    (renormalize c).px (y : ℤ) (x : ℤ) ≤ 255 := by
  unfold renormalize
  by_cases h : gridMax28 c = 0
  · rw [if_pos h]
    have := px_le_gridMax28 c y x hy hx
    omega
  · rw [if_neg h]
    have hm : 0 < gridMax28 c := Nat.pos_of_ne_zero h
    have hle := px_le_gridMax28 c y x hy hx
    calc c.px (y : ℤ) (x : ℤ) * 255 / gridMax28 c
        ≤ gridMax28 c * 255 / gridMax28 c := Nat.div_le_div_right (by omega)
    _ = 255 := Nat.mul_div_cancel_left 255 hm

/-- Inversion of `Except.bind` on a successful result. -/
theorem except_bind_ok {α β : Type} (e : Except CvErr α) (f : α → Except CvErr β) (c : β)
    (h : e.bind f = Except.ok c) : ∃ v, e = Except.ok v ∧ f v = Except.ok c := by
  cases e with
  | error err => simp [Except.bind] at h
  | ok v => exact ⟨v, rfl, h⟩

/-- Inversion of `Except.map` on a successful result. -/
theorem except_map_ok {α β : Type} (e : Except CvErr α) (g : α → β) (c : β)
    (h : e.map g = Except.ok c) : ∃ v, e = Except.ok v ∧ c = g v := by
  cases e with
  | error err => simp [Except.map] at h
  | ok v =>
    simp only [Except.map, Except.ok.injEq] at h
    exact ⟨v, rfl, h.symm⟩

/-- Every canvas produced by the body of the pipeline is uint8-bounded on the
28×28 grid: the early exits return the all-zero canvas, and the success path
ends in `renormalize`. -/
theorem preprocessBody_ok_px_le (cv : CV) (img : Img) (c : Img)
    (h : preprocessBody cv img = Except.ok c) (y x : ℕ) (hy : y < 28) (hx : x < 28) :
    c.px (y : ℤ) (x : ℤ) ≤ 255 := by
  unfold preprocessBody at h
  obtain ⟨enh, -, h⟩ := except_bind_ok _ _ _ h
  obtain ⟨binary, -, h⟩ := except_bind_ok _ _ _ h
  obtain ⟨mask, -, h⟩ := except_bind_ok _ _ _ h
  by_cases h4 : countNonZero mask < 10
  · rw [if_pos h4] at h
    simp only [Except.ok.injEq] at h
    subst h
    simp [zeroCanvas]
  · rw [if_neg h4] at h
    obtain ⟨closed, -, h⟩ := except_bind_ok _ _ _ h
    by_cases h6 : countNonZero closed = 0
    · rw [if_pos h6] at h
      simp only [Except.ok.injEq] at h
      subst h
      simp [zeroCanvas]
    · rw [if_neg h6] at h
      obtain ⟨dr, -, h⟩ := except_bind_ok _ _ _ h
      obtain ⟨blurred, -, h⟩ := except_map_ok _ _ _ h
      subst h
      exact renormalize_px_le _ y x hy hx

/-- C1: for every behaviour of the external primitives and every input image,
`preprocess_for_mnist` returns a (1, 28, 28, 1) float tensor (the type
`Canonical`) whose every element lies in [0, 1] — on the success path, both
early-exit paths, and the exception-fallback path alike. -/
theorem c1_output_in_unit_interval (cv : CV) (img : Img)
    (b : Fin 1) (y x : Fin 28) (ch : Fin 1) :
    0 ≤ preprocess_for_mnist cv img b y x ch ∧ preprocess_for_mnist cv img b y x ch ≤ 1 := by
  have hle : (preprocessCanvas cv img).px ((y : ℕ) : ℤ) ((x : ℕ) : ℤ) ≤ 255 := by
    unfold preprocessCanvas
    cases hb : preprocessBody cv img with
    | ok c => exact preprocessBody_ok_px_le cv img c hb y x y.isLt x.isLt
    | error e => simp [zeroCanvas]
  unfold preprocess_for_mnist toCanonical
  constructor
  · exact div_nonneg (by exact_mod_cast Nat.zero_le _) (by norm_num)
  · rw [div_le_one (by norm_num)]
    exact_mod_cast hle

/-! ### C2 — no exception escapes; failures map to the zero tensor -/

/-- C2: whenever the pipeline body fails internally (any primitive raises),
`preprocess_for_mnist` still returns normally, with the all-zero tensor as
value; no error is propagated (the return type is total). -/
theorem c2_failure_returns_zero_tensor (cv : CV) (img : Img) (e : CvErr)
    (h : preprocessBody cv img = Except.error e) :
    preprocess_for_mnist cv img = zeroCanonical := by
  unfold preprocess_for_mnist preprocessCanvas
  rw [h]
  funext b y x ch
  unfold toCanonical zeroCanvas zeroCanonical
  norm_num

/-- C2 witness: a CLAHE failure on a concrete input yields the zero tensor. -/
theorem c2_witness :
    preprocessBody cvFail (constImg 4 4 0) = Except.error CvErr.exn ∧
    preprocess_for_mnist cvFail (constImg 4 4 0) = zeroCanonical :=
  ⟨rfl, c2_failure_returns_zero_tensor cvFail (constImg 4 4 0) CvErr.exn rfl⟩

/-! ### C5 — early exit below 10 surviving pixels -/

/-- C5: if after noise suppression the surviving mask has fewer than 10
foreground pixels, the pipeline short-circuits to the all-zero tensor — for
every behaviour of the primitives used by the later steps (closing, resize,
blur), which are therefore never able to influence the result. -/
theorem c5_early_exit (cv : CV) (img : Img) (enh binary mask : Img)
    (h1 : cv.clahe (polarityFix img) = Except.ok enh)
    (h2 : adaptive_threshold cv enh = Except.ok binary)
    (h3 : remove_small_components cv binary = Except.ok mask)
    (h4 : countNonZero mask < 10) :
    preprocess_for_mnist cv img = zeroCanonical := by
  have hb : preprocessBody cv img = Except.ok zeroCanvas := by
    simp only [preprocessBody, h1, h2, h3, Except.bind]
    rw [if_pos h4]
  unfold preprocess_for_mnist preprocessCanvas
  rw [hb]
  funext b y x ch
  unfold toCanonical zeroCanvas zeroCanonical
  norm_num

/-- C5 witness: a surviving mask with a single pixel short-circuits. -/
theorem c5_witness : preprocess_for_mnist cvSmall (constImg 4 4 0) = zeroCanonical :=
  c5_early_exit cvSmall (constImg 4 4 0) (polarityFix (constImg 4 4 0)) halfImg halfImg
    rfl rfl rfl (by decide)

/-! ### C6 — center-of-mass refinement -/

/-- Truncation of a negated rational negates the truncation (as Python's
`int()` does). -/
theorem ratTrunc_neg (q : ℚ) : ratTrunc (-q) = -ratTrunc q := by
  unfold ratTrunc
  rw [Rat.neg_num, Rat.neg_den, Int.neg_tdiv]

/-- On nonnegative rationals, truncation toward zero is the floor. -/
theorem ratTrunc_of_nonneg (q : ℚ) (h : 0 ≤ q) : ratTrunc q = ⌊q⌋ := by
  unfold ratTrunc
  rw [Int.tdiv_eq_ediv (Rat.num_nonneg.mpr h) (Int.natCast_nonneg q.den)]
  exact Rat.floor_def.symm

/-- Truncation of a nonnegative integer fraction is integer T-division. -/
theorem ratTrunc_intCast_div_natCast_of_nonneg (a : ℤ) (d : ℕ) (ha : 0 ≤ a) :
    ratTrunc ((a : ℚ) / (d : ℚ)) = a.tdiv (d : ℤ) := by
  have hq : (0:ℚ) ≤ (a : ℚ) / (d : ℚ) := div_nonneg (by exact_mod_cast ha) (by positivity)
  rw [ratTrunc_of_nonneg _ hq, Rat.floor_intCast_div_natCast,
    Int.tdiv_eq_ediv ha (Int.natCast_nonneg d)]

/-- Truncation of an integer fraction with positive denominator is integer
T-division: Python's `int(a / d)` in exact arithmetic. -/
theorem ratTrunc_intCast_div_natCast (a : ℤ) (d : ℕ) :
    ratTrunc ((a : ℚ) / (d : ℚ)) = a.tdiv (d : ℤ) := by
  rcases le_or_lt 0 a with ha | ha
  · exact ratTrunc_intCast_div_natCast_of_nonneg a d ha
  · have h1 : (a : ℚ) / (d : ℚ) = -(((-a : ℤ) : ℚ) / (d : ℚ)) := by push_cast; ring
    rw [h1, ratTrunc_neg, ratTrunc_intCast_div_natCast_of_nonneg (-a) d (by omega),
      Int.neg_tdiv, neg_neg]

/-- Truncation toward zero moves a rational by strictly less than 1. -/
theorem abs_sub_ratTrunc_lt_one (q : ℚ) : |q - (ratTrunc q : ℚ)| < 1 := by
  rcases le_or_lt 0 q with h | h
  · rw [ratTrunc_of_nonneg q h, abs_of_nonneg (by linarith [Int.floor_le q])]
    linarith [Int.lt_floor_add_one q]
  · have h0 : (0:ℚ) ≤ -q := by linarith
    have hneg : ratTrunc q = -⌊-q⌋ := by
      have h2 := ratTrunc_neg (-q)
      rw [neg_neg] at h2
      rw [h2, ratTrunc_of_nonneg _ h0]
    rw [hneg]
    push_cast
    rw [abs_lt]
    constructor
    · linarith [Int.lt_floor_add_one (-q)]
    · linarith [Int.floor_le (-q)]

/-- The shift applied by `center_digit_by_mass` moves no foreground pixel of
the 28×28 canvas outside the canvas. -/
def noClip (c : Img) (sy sx : ℤ) : Prop :=
  ∀ y : ℕ, y < 28 → ∀ x : ℕ, x < 28 → c.px (y : ℤ) (x : ℤ) ≠ 0 →
    0 ≤ (y : ℤ) + sy ∧ (y : ℤ) + sy < 28 ∧ 0 ≤ (x : ℤ) + sx ∧ (x : ℤ) + sx < 28

instance (c : Img) (sy sx : ℤ) : Decidable (noClip c sy sx) := by
  unfold noClip
  infer_instance

/-- The 28×28 index square, as integer pairs. -/
def sq28 : Finset (ℤ × ℤ) := Finset.Icc (0:ℤ) 27 ×ˢ Finset.Icc (0:ℤ) 27

/-- Recast a sum over the integer interval [0, 27] as a sum over `range 28`. -/
theorem sum_Icc27_cast (g : ℤ → ℚ) :
    ∑ z ∈ Finset.Icc (0:ℤ) 27, g z = ∑ y ∈ Finset.range 28, g (y : ℤ) := by
  rw [show Finset.Icc (0:ℤ) 27
        = (Finset.range 28).map ⟨(Int.ofNat ·), fun a b h => Int.ofNat.inj h⟩ from by decide]
  rw [Finset.sum_map]
  rfl

/-- Recast a double sum over `range 28` as a sum over the index square. -/
theorem sum_sq28_eq (f : ℤ → ℤ → ℚ) :
    ∑ p ∈ sq28, f p.1 p.2 = ∑ y ∈ Finset.range 28, ∑ x ∈ Finset.range 28, f (y:ℤ) (x:ℤ) := by
  unfold sq28
  rw [Finset.sum_product']
  rw [sum_Icc27_cast (fun z => ∑ x ∈ Finset.Icc (0:ℤ) 27, f z x)]
  exact Finset.sum_congr rfl fun y _ => sum_Icc27_cast (f (y:ℤ))

/-- Total mass as a rational sum over the index square. -/
theorem gridMass_cast_sq28 (c : Img) (hh : c.h = 28) (hw : c.w = 28) :
    (gridMass c : ℚ) = ∑ p ∈ sq28, (c.px p.1 p.2 : ℚ) := by
  rw [sum_sq28_eq (fun a b => (c.px a b : ℚ))]
  unfold gridMass
  rw [hh, hw]
  push_cast
  rfl

/-- Column-weighted mass as a rational sum over the index square. -/
theorem sumXw_cast_sq28 (c : Img) (hh : c.h = 28) (hw : c.w = 28) :
    (sumXw c : ℚ) = ∑ p ∈ sq28, (p.2 : ℚ) * (c.px p.1 p.2 : ℚ) := by
  rw [sum_sq28_eq (fun a b => (b : ℚ) * (c.px a b : ℚ))]
  unfold sumXw
  rw [hh, hw]
  push_cast
  rfl

/-- Row-weighted mass as a rational sum over the index square. -/
theorem sumYw_cast_sq28 (c : Img) (hh : c.h = 28) (hw : c.w = 28) :
    (sumYw c : ℚ) = ∑ p ∈ sq28, (p.1 : ℚ) * (c.px p.1 p.2 : ℚ) := by
  rw [sum_sq28_eq (fun a b => (a : ℚ) * (c.px a b : ℚ))]
  unfold sumYw
  rw [hh, hw]
  push_cast
  rfl

/-- Change of variables for weighted sums over a translated canvas: when the
translation clips no foreground pixel, summing a weight against the shifted
canvas is summing the translated weight against the original canvas. -/
theorem shiftImg_sum (c : Img) (sy sx : ℤ) (hnc : noClip c sy sx) (φ : ℤ → ℤ → ℚ) :
    ∑ p ∈ sq28, φ p.1 p.2 * ((shiftImg sy sx c).px p.1 p.2 : ℚ)
      = ∑ p ∈ sq28, φ (p.1 + sy) (p.2 + sx) * (c.px p.1 p.2 : ℚ) := by
  have step1 : ∀ p : ℤ × ℤ,
      φ p.1 p.2 * ((shiftImg sy sx c).px p.1 p.2 : ℚ)
        = if 0 ≤ p.1 - sy ∧ p.1 - sy < (28:ℤ) ∧ 0 ≤ p.2 - sx ∧ p.2 - sx < (28:ℤ) then
            φ p.1 p.2 * (c.px (p.1 - sy) (p.2 - sx) : ℚ)
          else 0 := by
    intro p
    simp only [shiftImg]
    split
    · rfl
    · simp
  rw [Finset.sum_congr rfl fun p _ => step1 p, ← Finset.sum_filter]
  have hvanish : ∀ q ∈ sq28,
      q ∉ sq28.filter (fun q : ℤ × ℤ =>
        0 ≤ q.1 + sy ∧ q.1 + sy < (28:ℤ) ∧ 0 ≤ q.2 + sx ∧ q.2 + sx < (28:ℤ)) →
      φ (q.1 + sy) (q.2 + sx) * (c.px q.1 q.2 : ℚ) = 0 := by
    intro q hq hqn
    simp only [sq28, Finset.mem_product, Finset.mem_Icc] at hq
    obtain ⟨⟨hq1a, hq1b⟩, hq2a, hq2b⟩ := hq
    by_cases hz : c.px q.1 q.2 = 0
    · rw [hz]
      simp
    · exfalso
      apply hqn
      have h1 : ((q.1.toNat : ℤ)) = q.1 := Int.toNat_of_nonneg hq1a
      have h2 : ((q.2.toNat : ℤ)) = q.2 := Int.toNat_of_nonneg hq2a
      have hb := hnc q.1.toNat (by omega) q.2.toNat (by omega) (by rw [h1, h2]; exact hz)
      rw [h1, h2] at hb
      refine Finset.mem_filter.mpr ⟨?_, hb⟩
      simp only [sq28, Finset.mem_product, Finset.mem_Icc]
      omega
  rw [← Finset.sum_subset (Finset.filter_subset _ sq28) hvanish]
  refine Finset.sum_bij' (fun p _ => (p.1 - sy, p.2 - sx)) (fun q _ => (q.1 + sy, q.2 + sx))
    ?_ ?_ ?_ ?_ ?_
  · intro p hp
    simp only [sq28, Finset.mem_filter, Finset.mem_product, Finset.mem_Icc] at hp ⊢
    omega
  · intro q hq
    simp only [sq28, Finset.mem_filter, Finset.mem_product, Finset.mem_Icc] at hq ⊢
    omega
  · intro p hp
    simp
  · intro q hq
    simp
  · intro p hp
    simp

/-- A clip-free translation preserves the total mass. -/
theorem gridMass_shift (c : Img) (hh : c.h = 28) (hw : c.w = 28) (sy sx : ℤ)
    (hnc : noClip c sy sx) : gridMass (shiftImg sy sx c) = gridMass c := by
  have hQ : (gridMass (shiftImg sy sx c) : ℚ) = (gridMass c : ℚ) := by
    rw [gridMass_cast_sq28 (shiftImg sy sx c) rfl rfl, gridMass_cast_sq28 c hh hw]
    have h := shiftImg_sum c sy sx hnc (fun _ _ => 1)
    simpa using h
  exact_mod_cast hQ

/-- A clip-free translation moves the column-weighted mass by `sx · mass`. -/
theorem sumXw_shift (c : Img) (hh : c.h = 28) (hw : c.w = 28) (sy sx : ℤ)
    (hnc : noClip c sy sx) :
    (sumXw (shiftImg sy sx c) : ℚ) = (sumXw c : ℚ) + (sx : ℚ) * (gridMass c : ℚ) := by
  rw [sumXw_cast_sq28 (shiftImg sy sx c) rfl rfl]
  rw [shiftImg_sum c sy sx hnc (fun _ x => (x : ℚ))]
  have expand : ∀ p : ℤ × ℤ, ((p.2 + sx : ℤ) : ℚ) * (c.px p.1 p.2 : ℚ)
      = (p.2 : ℚ) * (c.px p.1 p.2 : ℚ) + (sx : ℚ) * (c.px p.1 p.2 : ℚ) := by
    intro p
    push_cast
    ring
  rw [Finset.sum_congr rfl fun p _ => expand p, Finset.sum_add_distrib, ← Finset.mul_sum,
    ← sumXw_cast_sq28 c hh hw, ← gridMass_cast_sq28 c hh hw]

/-- A clip-free translation moves the row-weighted mass by `sy · mass`. -/
theorem sumYw_shift (c : Img) (hh : c.h = 28) (hw : c.w = 28) (sy sx : ℤ)
    (hnc : noClip c sy sx) :
    (sumYw (shiftImg sy sx c) : ℚ) = (sumYw c : ℚ) + (sy : ℚ) * (gridMass c : ℚ) := by
  rw [sumYw_cast_sq28 (shiftImg sy sx c) rfl rfl]
  rw [shiftImg_sum c sy sx hnc (fun y _ => (y : ℚ))]
  have expand : ∀ p : ℤ × ℤ, ((p.1 + sy : ℤ) : ℚ) * (c.px p.1 p.2 : ℚ)
      = (p.1 : ℚ) * (c.px p.1 p.2 : ℚ) + (sy : ℚ) * (c.px p.1 p.2 : ℚ) := by
    intro p
    push_cast
    ring
  rw [Finset.sum_congr rfl fun p _ => expand p, Finset.sum_add_distrib, ← Finset.mul_sum,
    ← sumYw_cast_sq28 c hh hw, ← gridMass_cast_sq28 c hh hw]

/-- A clip-free translation moves the centroid column by exactly `sx`. -/
theorem centroidX_shift (c : Img) (hh : c.h = 28) (hw : c.w = 28) (sy sx : ℤ)
    (hnc : noClip c sy sx) (hm : gridMass c ≠ 0) :
    centroidX (shiftImg sy sx c) = centroidX c + (sx : ℚ) := by
  unfold centroidX
  rw [gridMass_shift c hh hw sy sx hnc, sumXw_shift c hh hw sy sx hnc]
  have hm' : (gridMass c : ℚ) ≠ 0 := Nat.cast_ne_zero.mpr hm
  field_simp

/-- A clip-free translation moves the centroid row by exactly `sy`. -/
theorem centroidY_shift (c : Img) (hh : c.h = 28) (hw : c.w = 28) (sy sx : ℤ)
    (hnc : noClip c sy sx) (hm : gridMass c ≠ 0) :
    centroidY (shiftImg sy sx c) = centroidY c + (sy : ℚ) := by
  unfold centroidY
  rw [gridMass_shift c hh hw sy sx hnc, sumYw_shift c hh hw sy sx hnc]
  have hm' : (gridMass c : ℚ) ≠ 0 := Nat.cast_ne_zero.mpr hm
  field_simp

/-- The integer shift computed by `center_digit_by_mass` is exactly
`int(13.5 - s/m)`, the truncation of the rational the source computes in
floating point. -/
theorem centerShift_eq_trunc (s m : ℕ) (hm : m ≠ 0) :
    Int.tdiv ((27 * m : ℤ) - 2 * (s : ℤ)) (2 * (m : ℤ))
      = ratTrunc ((27:ℚ)/2 - (s : ℚ) / (m : ℚ)) := by
  have hm' : (m : ℚ) ≠ 0 := Nat.cast_ne_zero.mpr hm
  have key : (27:ℚ)/2 - (s : ℚ) / (m : ℚ)
      = (((27 * m : ℤ) - 2 * (s : ℤ) : ℤ) : ℚ) / ((2 * m : ℕ) : ℚ) := by
    field_simp
  rw [key, ratTrunc_intCast_div_natCast]
  congr 1

/-- C6 (amended): on a 28×28 canvas, (i) an undefined centroid (zero mass)
leaves the canvas unchanged; (ii) otherwise the applied translation is exactly
`int(13.5 - centroid)` per axis; and (iii) whenever that translation moves no
foreground pixel off the canvas, the centroid of the centered canvas lies
strictly within 1 pixel of (13.5, 13.5) on each axis.  (The claim as frozen
asserts (iii) without the no-clip proviso; `c6_counterexample` shows the
proviso is necessary.) -/
theorem c6_centering (c : Img) (hh : c.h = 28) (hw : c.w = 28) :
    (gridMass c = 0 → center_digit_by_mass c = c) ∧
    (gridMass c ≠ 0 →
      center_digit_by_mass c
        = shiftImg (ratTrunc ((27:ℚ)/2 - centroidY c)) (ratTrunc ((27:ℚ)/2 - centroidX c)) c) ∧
    (gridMass c ≠ 0 →
      noClip c (Int.tdiv ((27 * gridMass c : ℤ) - 2 * (sumYw c : ℤ)) (2 * (gridMass c : ℤ)))
        (Int.tdiv ((27 * gridMass c : ℤ) - 2 * (sumXw c : ℤ)) (2 * (gridMass c : ℤ))) →
      |(27:ℚ)/2 - centroidX (center_digit_by_mass c)| < 1 ∧
      |(27:ℚ)/2 - centroidY (center_digit_by_mass c)| < 1) := by
  refine ⟨?_, ?_, ?_⟩
  · intro hm
    simp only [center_digit_by_mass]
    rw [if_pos hm]
  · intro hm
    simp only [center_digit_by_mass]
    rw [if_neg hm]
    congr 1
    · rw [centerShift_eq_trunc (sumYw c) (gridMass c) hm]
      rfl
    · rw [centerShift_eq_trunc (sumXw c) (gridMass c) hm]
      rfl
  · intro hm hnc
    set sy := Int.tdiv ((27 * gridMass c : ℤ) - 2 * (sumYw c : ℤ)) (2 * (gridMass c : ℤ))
      with hsydef
    set sx := Int.tdiv ((27 * gridMass c : ℤ) - 2 * (sumXw c : ℤ)) (2 * (gridMass c : ℤ))
      with hsxdef
    have hcent : center_digit_by_mass c = shiftImg sy sx c := by
      simp only [center_digit_by_mass]
      rw [if_neg hm]
    have hsy2 : sy = ratTrunc ((27:ℚ)/2 - centroidY c) := by
      rw [hsydef, centerShift_eq_trunc (sumYw c) (gridMass c) hm]
      rfl
    have hsx2 : sx = ratTrunc ((27:ℚ)/2 - centroidX c) := by
      rw [hsxdef, centerShift_eq_trunc (sumXw c) (gridMass c) hm]
      rfl
    rw [hcent]
    rw [centroidX_shift c hh hw sy sx hnc hm, centroidY_shift c hh hw sy sx hnc hm]
    constructor
    · have h1 : (27:ℚ)/2 - (centroidX c + (sx : ℚ))
          = ((27:ℚ)/2 - centroidX c) - ((ratTrunc ((27:ℚ)/2 - centroidX c) : ℤ) : ℚ) := by
        rw [hsx2]
        ring
      rw [h1]
      exact abs_sub_ratTrunc_lt_one _
    · have h1 : (27:ℚ)/2 - (centroidY c + (sy : ℚ))
          = ((27:ℚ)/2 - centroidY c) - ((ratTrunc ((27:ℚ)/2 - centroidY c) : ℤ) : ℚ) := by
        rw [hsy2]
        ring
      rw [h1]
      exact abs_sub_ratTrunc_lt_one _

/-- A single-pixel canvas at (13, 13). -/
def cOne : Img := ⟨28, 28, fun y x => if y = 13 ∧ x = 13 then 255 else 0⟩

/-- C6 witness: a single pixel at (13, 13) (shift 0, no clipping). -/
theorem c6_witness :
    |(27:ℚ)/2 - centroidX (center_digit_by_mass cOne)| < 1 ∧
    |(27:ℚ)/2 - centroidY (center_digit_by_mass cOne)| < 1 :=
  (c6_centering cOne rfl rfl).2.2 (by decide) (by decide)

/-- A connected 28×28 binary canvas inside the placement region [4,23]²: a
heavy 2-column block (columns 4–5, rows 4–23), a thin top row (row 4,
columns 6–22) and one pixel at (4, 23).  Its centroid column is 441/58,
so the computed shift is (2, 5) and the single pixel at column 23 is
translated to column 28, off the canvas. -/
def cBad : Img := ⟨28, 28, fun y x =>
  if (4 ≤ y ∧ y ≤ 23 ∧ 4 ≤ x ∧ x ≤ 5) ∨ (y = 4 ∧ 6 ≤ x ∧ x ≤ 22) ∨ (y = 4 ∧ x = 23)
  then 255 else 0⟩

/-- C6 counterexample: a canvas with foreground (58 pixels of value 255)
whose centered image has centroid column 703/57 ≈ 12.33, at distance
7/6 > 1 from 13.5: the claimed 1-pixel bound fails when the truncated shift
pushes mass off the canvas. -/
theorem c6_counterexample :
    gridMass cBad ≠ 0 ∧ 1 < |(27:ℚ)/2 - centroidX (center_digit_by_mass cBad)| := by
  have hcenter : center_digit_by_mass cBad = shiftImg 2 5 cBad := by
    simp only [center_digit_by_mass]
    rw [if_neg (by decide)]
    congr 1
  have hm : gridMass (shiftImg 2 5 cBad) = 14535 := by decide
  have hs : sumXw (shiftImg 2 5 cBad) = 179265 := by decide
  refine ⟨by decide, ?_⟩
  rw [hcenter]
  unfold centroidX
  rw [hm, hs]
  have hval : (27:ℚ)/2 - ((179265 : ℕ) : ℚ) / ((14535 : ℕ) : ℚ) = 7/6 := by
    norm_num
  rw [hval]
  rw [abs_of_pos (by norm_num)]
  norm_num

/-! ### C3 — blank input -/

/-- A blank 4×4 canvas: every pixel equals the background value 0. -/
def blank4 : Img := constImg 4 4 0

/-- CV instance reproducing the documented behaviour of the OpenCV primitives
on the constant-image trace of a blank input:

* CLAHE maps a constant image to a constant image (modelled as the identity);
* Otsu thresholding of a constant image collapses (all-background here), so
  its foreground fraction is outside [0.01, 0.9] and the fallback fires;
* `cv2.adaptiveThreshold(..., THRESH_BINARY, 11, 2)` marks every pixel of a
  flat image as foreground, because each pixel satisfies
  `src > mean - C = src - 2` — the mask is all 255;
* connected components of the all-white mask: one foreground label covering
  the frame;
* morphological closing of an all-white mask is all-white (identity here);
* area resampling of a constant image is constant (modelled by replicating
  the top-left pixel);
* the blur is modelled as the identity (it preserves the positive maximum of
  the canvas, which is all the conclusion uses). -/
def cvFlat : CV :=
  ⟨fun i => .ok i,
   fun i => .ok (constImg i.h i.w 0),
   fun i => .ok (constImg i.h i.w 255),
   fun b => .ok ⟨2, fun _ _ => 1, fun l => if l = 1 then countNonZero b else 0⟩,
   fun i => .ok i,
   fun i w h _ => .ok ⟨h, w, fun _ _ => i.px 0 0⟩,
   fun i => .ok i⟩

set_option maxRecDepth 100000 in
/-- C3: on a blank (all-background) input with at least 10 pixels, the
pipeline does NOT return the all-zero tensor: Otsu collapses on the constant
image, the Gaussian adaptive threshold turns the flat image all-white, the
whole frame survives as the single component, and the final tensor is a
centered white square — pixel (13, 13) of the output is exactly 1.  This
contradicts the specified degenerate case (blank input ↦ all-zero tensor). -/
theorem c3_blank_input_not_zero :
    histCount blank4 0 = 16 ∧ preprocess_for_mnist cvFlat blank4 0 13 13 0 = 1 := by
  have hpx : (preprocessCanvas cvFlat blank4).px (((13 : Fin 28) : ℕ) : ℤ)
      (((13 : Fin 28) : ℕ) : ℤ) = 255 := by decide
  refine ⟨by decide, ?_⟩
  unfold preprocess_for_mnist toCanonical
  rw [hpx]
  norm_num

/-! ### Explanation engine — Grad-CAM (gradcam.py) and activation capture
(model.py).

The trained model, its forward pass and the gradient tape are abstracted by
`KModel`: for the (fixed) input tensor it records the layer names, the class
count, the prediction vector, each layer's activation tensor and, for every
class index, the tape gradient of that class score with respect to a layer's
output.  The Grad-CAM arithmetic on those tensors is embedded exactly. -/

/-- Channel weight: `pooled_grads = tf.reduce_mean(grads, axis=(0, 1, 2))`
(gradcam.py line 72) on a (1, H, W, C) gradient — the mean over 1·H·W
values. -/
def gradCamPooled (H W : ℕ) (grads : ℕ → ℕ → ℕ → ℚ) (ch : ℕ) : ℚ :=
  (∑ y ∈ Finset.range H, ∑ x ∈ Finset.range W, grads y x ch) / ((H * W : ℕ) : ℚ)

/-- Channel-weighted sum `conv_output[0] @ pooled_grads[..., tf.newaxis]`
followed by `squeeze` (lines 75-77). -/
def gradCamRaw (H W C : ℕ) (conv grads : ℕ → ℕ → ℕ → ℚ) (y x : ℕ) : ℚ :=
  ∑ ch ∈ Finset.range C, conv y x ch * gradCamPooled H W grads ch

/-- Rectification `tf.maximum(heatmap, 0)` (line 80). -/
def gradCamRelu (H W C : ℕ) (conv grads : ℕ → ℕ → ℕ → ℚ) (y x : ℕ) : ℚ :=
  max 0 (gradCamRaw H W C conv grads y x)

/-- The maximum `tf.reduce_max(heatmap)` of the rectified map over the H×W
grid.  Because every rectified value is nonnegative, folding `max` with
initial value 0 over the grid computes exactly that maximum (and 0 on an
empty grid). -/
def gradCamMax (H W C : ℕ) (conv grads : ℕ → ℕ → ℕ → ℚ) : ℚ :=
  ((List.range H).map fun y =>
    ((List.range W).map fun x => gradCamRelu H W C conv grads y x).foldr max 0).foldr max 0

/-- `keras.backend.epsilon() = 1e-7` (line 83). -/
def gradCamEps : ℚ := 1 / 10000000

/-- The normalized heatmap `heatmap / (tf.reduce_max(heatmap) + epsilon)`
(line 83) returned by `GradCAM.generate_heatmap`. -/
def gradCamNorm (H W C : ℕ) (conv grads : ℕ → ℕ → ℕ → ℚ) (y x : ℕ) : ℚ :=
  gradCamRelu H W C conv grads y x / (gradCamMax H W C conv grads + gradCamEps)

/-- A max-fold with seed 0 is nonnegative. -/
theorem foldr_max_nonneg (l : List ℚ) : 0 ≤ l.foldr max 0 := by
  induction l with
  | nil => exact le_refl 0
  | cons b t ih => exact le_trans ih (le_max_right b _)

/-- Every list element is bounded by the max-fold. -/
theorem le_foldr_max (l : List ℚ) (a : ℚ) (ha : a ∈ l) : a ≤ l.foldr max 0 := by
  induction l with
  | nil => cases ha
  | cons b t ih =>
    rcases List.mem_cons.mp ha with rfl | hmem
    · exact le_max_left a _
    · exact le_trans (ih hmem) (le_max_right b _)

/-- A max-fold is its seed or one of the list elements. -/
theorem foldr_max_mem (l : List ℚ) : l.foldr max 0 = 0 ∨ l.foldr max 0 ∈ l := by
  induction l with
  | nil => exact Or.inl rfl
  | cons b t ih =>
    rcases le_total b (t.foldr max 0) with h | h
    · rw [List.foldr_cons, max_eq_right h]
      rcases ih with h0 | hmem
      · exact Or.inl h0
      · exact Or.inr (List.mem_cons_of_mem b hmem)
    · rw [List.foldr_cons, max_eq_left h]
      exact Or.inr (List.mem_cons_self b t)

/-- The Grad-CAM maximum is nonnegative. -/
theorem gradCamMax_nonneg (H W C : ℕ) (conv grads : ℕ → ℕ → ℕ → ℚ) :
    0 ≤ gradCamMax H W C conv grads :=
  foldr_max_nonneg _

/-- Every in-grid rectified value is bounded by the Grad-CAM maximum. -/
theorem le_gradCamMax (H W C : ℕ) (conv grads : ℕ → ℕ → ℕ → ℚ) (y x : ℕ)
    (hy : y < H) (hx : x < W) :
    gradCamRelu H W C conv grads y x ≤ gradCamMax H W C conv grads := by
  unfold gradCamMax
  refine le_trans
    (le_foldr_max ((List.range W).map fun x => gradCamRelu H W C conv grads y x) _ ?_)
    (le_foldr_max ((List.range H).map fun y =>
      ((List.range W).map fun x => gradCamRelu H W C conv grads y x).foldr max 0) _ ?_)
  · exact List.mem_map.mpr ⟨x, List.mem_range.mpr hx, rfl⟩
  · exact List.mem_map.mpr ⟨y, List.mem_range.mpr hy, rfl⟩

/-- On a nonempty grid, some rectified value attains the Grad-CAM maximum. -/
theorem gradCamMax_attained (H W C : ℕ) (conv grads : ℕ → ℕ → ℕ → ℚ)
    (hH : 0 < H) (hW : 0 < W) :
    ∃ y x : ℕ, y < H ∧ x < W ∧
      gradCamRelu H W C conv grads y x = gradCamMax H W C conv grads := by
  have hzero : ∀ y x : ℕ, y < H → x < W → gradCamMax H W C conv grads = 0 →
      gradCamRelu H W C conv grads y x = gradCamMax H W C conv grads := by
    intro y x hy hx h0
    have h1 := le_gradCamMax H W C conv grads y x hy hx
    have h2 : 0 ≤ gradCamRelu H W C conv grads y x := le_max_left 0 _
    rw [h0] at h1 ⊢
    linarith
  rcases foldr_max_mem ((List.range H).map fun y =>
      ((List.range W).map fun x => gradCamRelu H W C conv grads y x).foldr max 0) with h0 | hmem
  · exact ⟨0, 0, hH, hW, hzero 0 0 hH hW h0⟩
  · obtain ⟨y, hy, hrow⟩ := List.mem_map.mp hmem
    rcases foldr_max_mem ((List.range W).map fun x => gradCamRelu H W C conv grads y x)
      with hr0 | hrmem
    · refine ⟨0, 0, hH, hW, hzero 0 0 hH hW ?_⟩
      unfold gradCamMax
      rw [← hrow, hr0]
    · obtain ⟨x, hx, hval⟩ := List.mem_map.mp hrmem
      refine ⟨y, x, List.mem_range.mp hy, List.mem_range.mp hx, ?_⟩
      unfold gradCamMax
      rw [← hrow, ← hval]

/-- C7 (amended): for every layer shape with a nonempty spatial grid and all
conv outputs and tape gradients, the normalized Grad-CAM heatmap (defined on
the layer's own H×W grid) has every value in [0, 1) — never exactly 1,
because of the epsilon added to the maximum — its largest value
`max/(max + ε)` is attained at some grid cell, and a uniformly zero gradient
yields the identically-zero heatmap. -/
theorem c7_heatmap_normalized (H W C : ℕ) (conv grads : ℕ → ℕ → ℕ → ℚ)
    (hH : 0 < H) (hW : 0 < W) :
    (∀ y x : ℕ, y < H → x < W →
      0 ≤ gradCamNorm H W C conv grads y x ∧ gradCamNorm H W C conv grads y x < 1) ∧
    (∃ y x : ℕ, y < H ∧ x < W ∧
      gradCamNorm H W C conv grads y x
        = gradCamMax H W C conv grads / (gradCamMax H W C conv grads + gradCamEps)) ∧
    ((∀ y x ch : ℕ, y < H → x < W → ch < C → grads y x ch = 0) →
      ∀ y x : ℕ, gradCamNorm H W C conv grads y x = 0) := by
  have hM0 := gradCamMax_nonneg H W C conv grads
  have heps : (0:ℚ) < gradCamEps := by norm_num [gradCamEps]
  have hden : 0 < gradCamMax H W C conv grads + gradCamEps := by linarith
  refine ⟨?_, ?_, ?_⟩
  · intro y x hy hx
    have hle := le_gradCamMax H W C conv grads y x hy hx
    unfold gradCamNorm
    constructor
    · exact div_nonneg (le_max_left 0 _) (le_of_lt hden)
    · rw [div_lt_one hden]
      linarith
  · obtain ⟨y, x, hy, hx, hval⟩ := gradCamMax_attained H W C conv grads hH hW
    refine ⟨y, x, hy, hx, ?_⟩
    unfold gradCamNorm
    rw [hval]
  · intro hz y x
    have hpooled : ∀ ch : ℕ, ch < C → gradCamPooled H W grads ch = 0 := by
      intro ch hch
      unfold gradCamPooled
      rw [Finset.sum_eq_zero]
      · exact zero_div _
      · intro y' hy'
        exact Finset.sum_eq_zero fun x' hx' =>
          hz y' x' ch (Finset.mem_range.mp hy') (Finset.mem_range.mp hx') hch
    unfold gradCamNorm gradCamRelu gradCamRaw
    rw [Finset.sum_eq_zero fun ch hch => by
      rw [hpooled ch (Finset.mem_range.mp hch), mul_zero]]
    simp

/-- The all-ones rank-3 tensor. -/
def oneT : ℕ → ℕ → ℕ → ℚ := fun _ _ _ => 1

/-- C7 witness: a 1×1×1 layer with unit activation and unit gradient. -/
theorem c7_witness :
    (0 ≤ gradCamNorm 1 1 1 oneT oneT 0 0 ∧ gradCamNorm 1 1 1 oneT oneT 0 0 < 1) ∧
    (∃ y x : ℕ, y < 1 ∧ x < 1 ∧ gradCamNorm 1 1 1 oneT oneT y x
        = gradCamMax 1 1 1 oneT oneT / (gradCamMax 1 1 1 oneT oneT + gradCamEps)) :=
  ⟨(c7_heatmap_normalized 1 1 1 oneT oneT (by norm_num) (by norm_num)).1 0 0
      (by norm_num) (by norm_num),
    (c7_heatmap_normalized 1 1 1 oneT oneT (by norm_num) (by norm_num)).2.1⟩

/-- C7 counterexample: with a 1×1×1 layer, unit activation and unit (hence
not uniformly zero) gradient, the sole heatmap entry is
10^7/(10^7 + 1) ≠ 1: no entry is ever exactly 1.0, because the source
divides by the maximum plus `keras.backend.epsilon()`. -/
theorem c7_counterexample :
    oneT 0 0 0 ≠ 0 ∧
    gradCamNorm 1 1 1 oneT oneT 0 0 = 10000000 / 10000001 ∧
    (10000000 : ℚ) / 10000001 ≠ 1 := by
  refine ⟨by norm_num [oneT], ?_, by norm_num⟩
  have hrelu : gradCamRelu 1 1 1 oneT oneT 0 0 = 1 := by
    unfold gradCamRelu gradCamRaw gradCamPooled oneT
    rw [Finset.sum_range_one, Finset.sum_range_one, Finset.sum_range_one]
    norm_num
  have hmax : gradCamMax 1 1 1 oneT oneT = 1 := by
    unfold gradCamMax
    rw [show List.range 1 = [0] from rfl, List.map_singleton, List.map_singleton,
      List.foldr_cons, List.foldr_nil, List.foldr_cons, List.foldr_nil, hrelu]
    norm_num
  unfold gradCamNorm gradCamEps
  rw [hrelu, hmax]
  norm_num

/-- The error condition the specification names `InvalidTargetError`: in the
source it is the keras `ValueError` raised by `Model.get_layer` on an absent
layer name, or the TensorFlow error raised by `predictions[:, class_idx]` on
an unindexable class index. -/
inductive InvalidTargetError where
  | layerAbsent : InvalidTargetError
  | classIndexOutOfRange : InvalidTargetError
deriving DecidableEq

/-- Abstract trained Keras model together with the results of the forward
pass and the gradient tape on the (fixed) canonical input tensor: the layer
names, the class count, the prediction vector `predictions[0]`, each layer's
spatial/channel shape and activation tensor, and for every class index the
tape gradient of that class score with respect to a layer's output. -/
structure KModel where
  layerNames : List String
  numClasses : ℕ
  predictions : ℕ → ℚ
  layerH : String → ℕ
  layerW : String → ℕ
  layerC : String → ℕ
  layerOut : String → ℕ → ℕ → ℕ → ℚ
  gradsFor : String → ℤ → ℕ → ℕ → ℕ → ℚ

/-- `model.get_layer(name).output`: keras raises `ValueError` when the layer
name is absent. -/
def get_layer (m : KModel) (name : String) :
    Except InvalidTargetError (ℕ → ℕ → ℕ → ℚ) :=
  if name ∈ m.layerNames then .ok (m.layerOut name) else .error .layerAbsent

/-- The state built by `GradCAM.__init__` (gradcam.py lines 21-39): the model
and the validated target layer name of the `grad_model`. -/
structure GradCAMObj where
  model : KModel
  layer_name : String

/-- `GradCAM.__init__`: building `grad_model` calls
`model.get_layer(layer_name)`, which raises when the layer is absent. -/
def gradCAM_init (m : KModel) (layer_name : String) :
    Except InvalidTargetError GradCAMObj :=
  if layer_name ∈ m.layerNames then .ok ⟨m, layer_name⟩ else .error .layerAbsent

/-- `tf.argmax(predictions[0])`: first index of the maximal probability. -/
def tfArgmax (m : KModel) : ℕ :=
  argmaxIdx ((List.range m.numClasses).map m.predictions)

/-- `GradCAM.generate_heatmap` (gradcam.py lines 41-85): select the class
index (`tf.argmax` when `None`), take the class score
`predictions[:, class_idx]` — TensorFlow basic indexing accepts exactly the
Python indices in `[-numClasses, numClasses)`, counting negative indices from
the end, and raises otherwise — and compute the normalized heatmap
`gradCamNorm` from the conv output and the tape gradient at the target
layer's own spatial resolution. -/
def generate_heatmap (g : GradCAMObj) (class_idx : Option ℤ) :
    Except InvalidTargetError (ℕ → ℕ → ℚ) :=
  let idx : ℤ := class_idx.getD (tfArgmax g.model)
  if -(g.model.numClasses : ℤ) ≤ idx ∧ idx < (g.model.numClasses : ℤ) then
    .ok (gradCamNorm (g.model.layerH g.layer_name) (g.model.layerW g.layer_name)
      (g.model.layerC g.layer_name) (g.model.layerOut g.layer_name)
      (g.model.gradsFor g.layer_name idx))
  else .error .classIndexOutOfRange

/-- `generate_gradcam_explanation` (gradcam.py lines 135-157): construct the
GradCAM object for the requested layer and produce the heatmap; errors from
either step propagate to the caller (no local recovery).  The overlay also
returned by the source is presentational and outside the verified core. -/
def generate_gradcam_explanation (m : KModel) (class_idx : Option ℤ)
    (layer_name : String) : Except InvalidTargetError (ℕ → ℕ → ℚ) :=
  (gradCAM_init m layer_name).bind fun g => generate_heatmap g class_idx

/-- Constructor test for `Except` results. -/
def exceptIsOk {ε α : Type} : Except ε α → Bool
  | .ok _ => true
  | .error _ => false

/-- C9 (amended): a request whose target layer is absent from the model fails
with the layer-absent `InvalidTargetError`, propagated to the caller; an
explicit class index outside the TensorFlow-indexable range
`[-numClasses, numClasses)` fails with the class-index `InvalidTargetError`;
but a negative Python-style index inside that range (e.g. -1 for the last
class) is accepted silently, so the failure boundary for class indices is
`[-numClasses, numClasses)`, not `[0, numClasses)`. -/
theorem c9_invalid_target (m : KModel) (ln : String) (ci : Option ℤ) :
    (ln ∉ m.layerNames →
      generate_gradcam_explanation m ci ln = .error .layerAbsent) ∧
    (ln ∈ m.layerNames → ∀ i : ℤ, ci = some i →
      ((i < -(m.numClasses : ℤ) ∨ (m.numClasses : ℤ) ≤ i) →
        generate_gradcam_explanation m ci ln = .error .classIndexOutOfRange) ∧
      ((-(m.numClasses : ℤ) ≤ i ∧ i < (m.numClasses : ℤ)) →
        exceptIsOk (generate_gradcam_explanation m ci ln) = true)) := by
  constructor
  · intro h
    unfold generate_gradcam_explanation gradCAM_init
    rw [if_neg h]
    rfl
  · intro hm i hci
    subst hci
    constructor
    · intro hout
      unfold generate_gradcam_explanation gradCAM_init
      rw [if_pos hm]
      show generate_heatmap ⟨m, ln⟩ (some i) = _
      unfold generate_heatmap
      simp only [Option.getD_some]
      rw [if_neg (by omega)]
    · intro hin
      unfold generate_gradcam_explanation gradCAM_init
      rw [if_pos hm]
      show exceptIsOk (generate_heatmap ⟨m, ln⟩ (some i)) = true
      unfold generate_heatmap
      simp only [Option.getD_some]
      rw [if_pos (by omega)]
      rfl

/-- A concrete five-layer, ten-class model with trivial tensors. -/
def m9 : KModel :=
  ⟨["conv1", "conv2", "conv3", "dense1", "predictions"], 10,
   fun _ => 0, fun _ => 7, fun _ => 7, fun _ => 64,
   fun _ _ _ _ => 0, fun _ _ _ _ _ => 0⟩

/-- C9 witness: an absent layer and a class index 10 ≥ numClasses both fail. -/
theorem c9_witness :
    generate_gradcam_explanation m9 none ("conv9")
      = Except.error InvalidTargetError.layerAbsent ∧
    generate_gradcam_explanation m9 (some 10) ("conv2")
      = Except.error InvalidTargetError.classIndexOutOfRange :=
  ⟨(c9_invalid_target m9 ("conv9") none).1 (by decide),
   ((c9_invalid_target m9 ("conv2") (some 10)).2 (by decide) 10 rfl).1 (by decide)⟩

/-- C9 counterexample: class index -1 is outside the model's class range
{0, …, 9}, yet the explanation succeeds (TensorFlow indexes from the end):
the claim that every out-of-class-range index raises is false at -1. -/
theorem c9_counterexample :
    m9.numClasses = 10 ∧ (-1 : ℤ) < 0 ∧
    exceptIsOk (generate_gradcam_explanation m9 (some (-1)) ("conv2")) = true := by
  refine ⟨rfl, by norm_num, ?_⟩
  rfl

/-- Key lookup in the named-outputs dictionary; `outputs[k]` raises KeyError
when the key is absent. -/
inductive KeyError where
  | missing : String → KeyError
deriving DecidableEq

/-- The activation-tensor type of one captured layer. -/
def Act : Type := ℕ → ℕ → ℕ → ℚ

/-- `outputs[k]` on an association list of named outputs. -/
def dictGet (outs : List (String × Act)) (k : String) : Except KeyError Act :=
  match List.lookup k outs with
  | some v => .ok v
  | none => .error (.missing k)

/-- The source `create_feature_extraction_model` (model.py lines 171-201):
look up `conv3` in a `try`, falling back to `conv2`'s output on the
`ValueError` of an absent layer (the uncaught lookup of `conv2` itself can
still raise); then build the named output mapping in the dictionary order
conv1, conv2, conv3, dense1, predictions. -/
def create_feature_extraction_model (m : KModel) :
    Except InvalidTargetError (List (String × Act)) :=
  (match get_layer m ("conv3") with
   | .ok o => Except.ok o
   | .error _ => get_layer m ("conv2")).bind fun conv3out =>
  (get_layer m ("conv1")).bind fun c1 =>
  (get_layer m ("conv2")).bind fun c2 =>
  (get_layer m ("dense1")).bind fun d1 =>
  (get_layer m ("predictions")).bind fun pr =>
  Except.ok [("conv1", c1), ("conv2", c2), ("conv3", conv3out),
             ("dense1", d1), ("predictions", pr)]

/-- The source `get_layer_activations` (model.py lines 204-226): `outs` is
the named-output dictionary returned by `feature_model.predict` for the input
image; the result re-exposes the five keys, reading `conv3` with
`outputs.get('conv3', outputs['conv2'])` (default never needed when the
feature model was built by `create_feature_extraction_model`, which always
includes the key). -/
def get_layer_activations (outs : List (String × Act)) :
    Except KeyError (List (String × Act)) :=
  (dictGet outs ("conv1")).bind fun c1 =>
  (dictGet outs ("conv2")).bind fun c2 =>
  let c3 := (List.lookup ("conv3") outs).getD c2
  (dictGet outs ("dense1")).bind fun d1 =>
  (dictGet outs ("predictions")).bind fun pr =>
  Except.ok [("conv1", c1), ("conv2", c2), ("conv3", c3),
             ("dense1", d1), ("predictions", pr)]

/-- C8: for a model exposing conv1, conv2, dense1 and predictions, the
activation capture returns a mapping with all five keys conv1, conv2, conv3,
dense1, predictions; when the model lacks `conv3`, the value under `conv3` is
the captured `conv2` output, and when the model has `conv3` it is that
layer's own output. -/
theorem c8_conv3_fallback (m : KModel)
    (h1 : ("conv1") ∈ m.layerNames) (h2 : ("conv2") ∈ m.layerNames)
    (h4 : ("dense1") ∈ m.layerNames) (h5 : ("predictions") ∈ m.layerNames) :
    (("conv3") ∉ m.layerNames →
      create_feature_extraction_model m = Except.ok
        [("conv1", m.layerOut ("conv1")), ("conv2", m.layerOut ("conv2")),
         ("conv3", m.layerOut ("conv2")), ("dense1", m.layerOut ("dense1")),
         ("predictions", m.layerOut ("predictions"))] ∧
      get_layer_activations
        [("conv1", m.layerOut ("conv1")), ("conv2", m.layerOut ("conv2")),
         ("conv3", m.layerOut ("conv2")), ("dense1", m.layerOut ("dense1")),
         ("predictions", m.layerOut ("predictions"))] = Except.ok
        [("conv1", m.layerOut ("conv1")), ("conv2", m.layerOut ("conv2")),
         ("conv3", m.layerOut ("conv2")), ("dense1", m.layerOut ("dense1")),
         ("predictions", m.layerOut ("predictions"))]) ∧
    (("conv3") ∈ m.layerNames →
      create_feature_extraction_model m = Except.ok
        [("conv1", m.layerOut ("conv1")), ("conv2", m.layerOut ("conv2")),
         ("conv3", m.layerOut ("conv3")), ("dense1", m.layerOut ("dense1")),
         ("predictions", m.layerOut ("predictions"))] ∧
      get_layer_activations
        [("conv1", m.layerOut ("conv1")), ("conv2", m.layerOut ("conv2")),
         ("conv3", m.layerOut ("conv3")), ("dense1", m.layerOut ("dense1")),
         ("predictions", m.layerOut ("predictions"))] = Except.ok
        [("conv1", m.layerOut ("conv1")), ("conv2", m.layerOut ("conv2")),
         ("conv3", m.layerOut ("conv3")), ("dense1", m.layerOut ("dense1")),
         ("predictions", m.layerOut ("predictions"))]) := by
  constructor
  · intro h3
    constructor
    · unfold create_feature_extraction_model get_layer
      rw [if_neg h3, if_pos h2, if_pos h1, if_pos h4, if_pos h5]
      rfl
    · rfl
  · intro h3
    constructor
    · unfold create_feature_extraction_model get_layer
      rw [if_pos h3, if_pos h1, if_pos h2, if_pos h4, if_pos h5]
      rfl
    · rfl

/-- A concrete four-layer model without `conv3`. -/
def m8 : KModel :=
  ⟨["conv1", "conv2", "dense1", "predictions"], 10,
   fun _ => 0, fun _ => 7, fun _ => 7, fun _ => 64,
   fun _ _ _ _ => 0, fun _ _ _ _ _ => 0⟩

/-- C8 witness: the fallback on a model without `conv3` and the direct
capture on a model with `conv3`. -/
theorem c8_witness :
    create_feature_extraction_model m8 = Except.ok
      [("conv1", m8.layerOut ("conv1")), ("conv2", m8.layerOut ("conv2")),
       ("conv3", m8.layerOut ("conv2")), ("dense1", m8.layerOut ("dense1")),
       ("predictions", m8.layerOut ("predictions"))] ∧
    create_feature_extraction_model m9 = Except.ok
      [("conv1", m9.layerOut ("conv1")), ("conv2", m9.layerOut ("conv2")),
       ("conv3", m9.layerOut ("conv3")), ("dense1", m9.layerOut ("dense1")),
       ("predictions", m9.layerOut ("predictions"))] :=
  ⟨((c8_conv3_fallback m8 (by decide) (by decide) (by decide) (by decide)).1 (by decide)).1,
   ((c8_conv3_fallback m9 (by decide) (by decide) (by decide) (by decide)).2 (by decide)).1⟩
